import Mathlib

/-!
Verification of the Ledger & Aggregation Engine of the trading
portfolio manager.

The repository keeps each wallet as a spreadsheet: Python code
(`wallet_manager.py`, `portfolio_manager.py`, `bot_connector.py`)
appends trade rows and reads summary cells, while the derived values
(running balance, cost basis, current value, total return, APY) are
spreadsheet formulas written by `_create_sheet_structure` and
`_calculate_running_balance_formula` and evaluated by the sheet engine.
This development embeds both layers:

  * a `Trade` is one trade-log row (columns A..F, H; the running-balance
    column G is derived);
  * the formula strings are translated into arithmetic over the ordered
    list of trade rows (real numbers are modelled as `Rat`;
    the Python layer uses binary floats, an abstraction this embedding
    makes exact);
  * the Python methods (`add_trade`, `get_trade_history`,
    `get_wallet_performance`, `get_portfolio_summary`, the bot
    connector) are translated as functions over explicit state, with
    each caught exception modelled as the value the handler returns.
-/

/-- One row of a wallet's trade log (columns Date, Action, Asset,
Quantity, Price, Total Value, Notes of the sheet; the Running Balance
column is derived, see `runningBalances`).  `action` is stored as the
string written by `add_trade`, which upper-cases whatever the caller
supplied, so it is not restricted to BUY/SELL by construction. -/
structure Trade where
  date : String
  action : String
  asset : String
  quantity : Rat
  price : Rat
  total_value : Rat
  notes : String
deriving DecidableEq, Repr

instance : Inhabited Trade := ⟨⟨"", "", "", 0, 0, 0, ""⟩⟩

/-- The signed contribution of one row to the running balance:
the formula term `IF(B="BUY",F,IF(B="SELL",-F,0))` shared by both
branches of `_calculate_running_balance_formula`. -/
def signedValue (t : Trade) : Rat :=
  if t.action = "BUY" then t.total_value
  else if t.action = "SELL" then -t.total_value
  else 0

/-- The chain of running-balance cells built by
`_calculate_running_balance_formula`: the first trade row evaluates
`IF(B6="BUY",F6,IF(B6="SELL",-F6,0))` (equal to `0 + signedValue`),
and every later row r evaluates `G(r-1) + IF(Br="BUY",Fr,...)`.
`prev` is the value of the previous running-balance cell. -/
def runningBalancesFrom (prev : Rat) : List Trade → List Rat
  | [] => []
  | t :: ts => (prev + signedValue t) :: runningBalancesFrom (prev + signedValue t) ts

/-- Running-balance column of a whole ledger; the seed before the first
trade row is 0 (the first-row formula has no previous cell, which is the
same as seeding with 0). -/
def runningBalances (ts : List Trade) : List Rat :=
  runningBalancesFrom 0 ts

/-- Initial Investment cell B2:
`=SUMPRODUCT((B6:B1000="BUY")*(F6:F1000))`, i.e. the sum of the Total
Value column over the rows whose Action cell is "BUY" (empty rows of the
range contribute 0). -/
def costBasis (ts : List Trade) : Rat :=
  (ts.map (fun t => if t.action = "BUY" then t.total_value else 0)).sum

/-- Current Value cell D2:
`=IF(ROW(G1000:G6)>0,INDEX(G6:G1000,COUNTA(G6:G1000)),0)` — the
running-balance cell of the last filled trade row; with no trade rows
the numeric read falls back to the default 0 (`_get_cell_value`). -/
def currentValue (ts : List Trade) : Rat :=
  (runningBalances ts).getLastD 0

/-- Total Return cell F2: `=D2-B2`. -/
def totalReturn (ts : List Trade) : Rat :=
  currentValue ts - costBasis ts

/-- The `total_return_pct` computed in Python by
`get_wallet_performance`: `((current_value / initial_investment) - 1) * 100`
when `initial_investment > 0`, else 0. -/
def totalReturnPct (ts : List Trade) : Rat :=
  if 0 < costBasis ts then (currentValue ts / costBasis ts - 1) * 100 else 0

/-- APY cell H2:
`=IF(AND(B2>0,D2>0,COUNTA(A6:A1000)>0),POWER((D2/B2),(365/MAX(1,DAYS(TODAY(),MIN(A6:A1000)))))-1,0)*100`.
The sheet engine's `POWER` (real exponentiation, evaluated outside the
repository) is abstracted as the parameter `power`, and the elapsed-day
count `DAYS(TODAY(),MIN(A6:A1000))` as the parameter `daysElapsed`;
`COUNTA` of the date column counts the trade rows. -/
def apy (power : Rat → Rat → Rat) (daysElapsed : Nat) (ts : List Trade) : Rat :=
  (if 0 < costBasis ts ∧ 0 < currentValue ts ∧ 0 < ts.length then
    power (currentValue ts / costBasis ts) (365 / (max 1 (daysElapsed : Rat))) - 1
  else 0) * 100

/-- Length of the running-balance column equals the number of trades. -/
theorem runningBalancesFrom_length (prev : Rat) (ts : List Trade) :
    (runningBalancesFrom prev ts).length = ts.length := by
  induction ts generalizing prev with
  | nil => rfl
  | cons t ts ih => simp [runningBalancesFrom, ih]

/-- Each cell of the running-balance chain is the seed plus the sum of
the signed values of the rows up to and including it. -/
theorem runningBalancesFrom_getD (prev : Rat) (ts : List Trade) (i : Nat)
    (hi : i < ts.length) :
    (runningBalancesFrom prev ts).getD i 0
      = prev + ((ts.take (i + 1)).map signedValue).sum := by
  induction ts generalizing prev i with
  | nil => simp at hi
  | cons t ts ih =>
    cases i with
    | zero => simp [runningBalancesFrom]
    | succ j =>
      have hj : j < ts.length := by simpa using hi
      simp only [runningBalancesFrom, List.getD_cons_succ, List.take_succ_cons,
        List.map_cons, List.sum_cons, ih (prev + signedValue t) j hj]
      ring

/-- On a row whose action is BUY or SELL, `signedValue` is the two-way
sign rule of the specification. -/
theorem signedValue_eq (t : Trade) (h : t.action = "BUY" ∨ t.action = "SELL") :
    signedValue t = if t.action = "BUY" then t.total_value else -t.total_value := by
  have hne : ("SELL" : String) ≠ "BUY" := by decide
  rcases h with h | h
  · simp [signedValue, h]
  · simp [signedValue, h, hne]

theorem sum_map_take_succ (f : Trade → Rat) (ts : List Trade) (i : Nat)
    (hi : i < ts.length) :
    ((ts.take (i + 1)).map f).sum = ((ts.take i).map f).sum + f ts[i] := by
  rw [List.take_succ, List.getElem?_eq_getElem hi]
  rw [List.map_append, List.sum_append]
  simp

theorem getD_eq_getElem_trade (ts : List Trade) (i : Nat) (hi : i < ts.length) :
    ts.getD i default = ts[i] := by
  simp [List.getD, List.getElem?_eq_getElem hi]

example :
    runningBalances
      [⟨"d1", "BUY", "BTC", 1, 1000, 1000, ""⟩,
       ⟨"d2", "SELL", "BTC", 1, 1200, 1200, ""⟩] = [1000, -200] := by
  simp [runningBalances, runningBalancesFrom, signedValue]
  norm_num

/-- C1: for every wallet ledger (a sequence of appended trades whose
actions are BUY or SELL), the running balance stored with the i-th
trade equals the sum of the signed total values of trades 0..i in
append order, and equals the running balance of trade i-1 (0 before
the first trade) plus the trade's `total_value` if its action is BUY
and minus it if SELL. -/
theorem c1_running_balance (ts : List Trade)
    (hact : ∀ t ∈ ts, t.action = "BUY" ∨ t.action = "SELL")
    (i : Nat) (hi : i < ts.length) :
    (runningBalances ts).getD i 0 = ((ts.take (i + 1)).map signedValue).sum ∧
    (runningBalances ts).getD i 0
      = (if i = 0 then 0 else (runningBalances ts).getD (i - 1) 0)
        + (if (ts.getD i default).action = "BUY"
            then (ts.getD i default).total_value
            else -(ts.getD i default).total_value) := by
  have h1 : (runningBalances ts).getD i 0
      = ((ts.take (i + 1)).map signedValue).sum := by
    simpa [runningBalances] using runningBalancesFrom_getD 0 ts i hi
  refine ⟨h1, ?_⟩
  have hmem : ts[i] ∈ ts := List.getElem_mem hi
  have hsv : signedValue ts[i]
      = if ts[i].action = "BUY" then ts[i].total_value else -ts[i].total_value :=
    signedValue_eq ts[i] (hact ts[i] hmem)
  rw [getD_eq_getElem_trade ts i hi]
  cases i with
  | zero =>
    have h0 : (ts.take 1).map signedValue = [signedValue ts[0]] := by
      rw [List.take_succ, List.getElem?_eq_getElem hi]
      simp
    rw [h1, h0]
    simp [hsv]
  | succ j =>
    have hj : j < ts.length := Nat.lt_of_succ_lt hi
    have h2 : (runningBalances ts).getD j 0
        = ((ts.take (j + 1)).map signedValue).sum := by
      simpa [runningBalances] using runningBalancesFrom_getD 0 ts j hj
    have hstep := sum_map_take_succ signedValue ts (j + 1) hi
    rw [h1, hstep, hsv, ← h2]
    simp

/-- A concrete BUY row used to instantiate the general theorems. -/
def demoBuy : Trade := ⟨"2024-01-01", "BUY", "BTC", 1, 1000, 1000, ""⟩

/-- A concrete SELL row used to instantiate the general theorems. -/
def demoSell : Trade := ⟨"2024-01-02", "SELL", "BTC", 1, 1200, 1200, ""⟩

/-- The two-trade ledger of the specification's scenario
(BUY 1000 then SELL 1200). -/
def demoLedger : List Trade := [demoBuy, demoSell]

/-- C1 witness at the scenario ledger, i = 1. -/
theorem c1_running_balance_witness :
    (runningBalances demoLedger).getD 1 0
      = ((demoLedger.take (1 + 1)).map signedValue).sum ∧
    (runningBalances demoLedger).getD 1 0
      = (if 1 = 0 then 0 else (runningBalances demoLedger).getD (1 - 1) 0)
        + (if (demoLedger.getD 1 default).action = "BUY"
            then (demoLedger.getD 1 default).total_value
            else -(demoLedger.getD 1 default).total_value) :=
  c1_running_balance demoLedger (by decide) 1 (by decide)

/-- Appending rows extends the SUMPRODUCT additively. -/
theorem costBasis_append (ts us : List Trade) :
    costBasis (ts ++ us) = costBasis ts + costBasis us := by
  simp [costBasis]

/-- The cost basis of a single row. -/
theorem costBasis_singleton (t : Trade) :
    costBasis [t] = if t.action = "BUY" then t.total_value else 0 := by
  simp [costBasis]

theorem getLastD_eq_getD_length_sub_one (l : List Rat) (h : l ≠ []) :
    l.getLastD 0 = l.getD (l.length - 1) 0 := by
  have hlen : 0 < l.length := List.length_pos.mpr h
  rw [List.getLastD_eq_getLast?, List.getLast?_eq_getLast _ h,
    List.getLast_eq_getElem]
  simp [List.getD, List.getElem?_eq_getElem (by omega : l.length - 1 < l.length)]

/-- C4: on a non-empty ledger, `currentValue` is the running-balance
entry stored with the most recently appended trade; on the empty ledger
every metric of the summary row is 0. -/
theorem c4_current_value (pow : Rat → Rat → Rat) (d : Nat) (ts : List Trade) :
    (ts ≠ [] → currentValue ts = (runningBalances ts).getD (ts.length - 1) 0) ∧
    (currentValue ([] : List Trade) = 0 ∧ costBasis [] = 0 ∧
      totalReturn ([] : List Trade) = 0 ∧ totalReturnPct [] = 0 ∧
      apy pow d [] = 0) := by
  constructor
  · intro h
    have hne : runningBalances ts ≠ [] := by
      intro habs
      apply h
      have := runningBalancesFrom_length 0 ts
      rw [runningBalances] at habs
      rw [habs] at this
      exact List.length_eq_zero.mp this.symm
    have hlen : (runningBalances ts).length = ts.length :=
      runningBalancesFrom_length 0 ts
    rw [currentValue, getLastD_eq_getD_length_sub_one _ hne, hlen]
  · refine ⟨?_, ?_, ?_, ?_, ?_⟩
    · rfl
    · rfl
    · simp [totalReturn, currentValue, costBasis, runningBalances,
        runningBalancesFrom]
    · simp [totalReturnPct, costBasis]
    · simp [apy]

/-- C4 witness at the two-trade scenario ledger. -/
theorem c4_current_value_witness :
    currentValue demoLedger
      = (runningBalances demoLedger).getD (demoLedger.length - 1) 0 :=
  (c4_current_value (fun a _ => a) 0 demoLedger).1 (by decide)

/-- C5: when `costBasis` is 0, `totalReturnPct` and `apy` are the
defined value 0 (the guard branch, not an error); when `costBasis > 0`,
`totalReturnPct` is `(currentValue / costBasis - 1) * 100`. -/
theorem c5_division_guard (pow : Rat → Rat → Rat) (d : Nat) (ts : List Trade) :
    (costBasis ts = 0 → totalReturnPct ts = 0 ∧ apy pow d ts = 0) ∧
    (0 < costBasis ts →
      totalReturnPct ts = (currentValue ts / costBasis ts - 1) * 100) := by
  constructor
  · intro h
    constructor
    · simp [totalReturnPct, h]
    · simp [apy, h]
  · intro h
    simp [totalReturnPct, h]

/-- The all-SELL ledger used to witness the zero-cost-basis guards. -/
def sellOnlyLedger : List Trade := [demoSell]

/-- C5 witness: an all-SELL ledger has cost basis 0 and both
percentage metrics evaluate to 0. -/
theorem c5_division_guard_witness :
    totalReturnPct sellOnlyLedger = 0 ∧
    apy (fun a _ => a) 7 sellOnlyLedger = 0 :=
  (c5_division_guard (fun a _ => a) 7 sellOnlyLedger).1
    (by simp [costBasis, sellOnlyLedger, demoSell])

/-- `get_trade_history(limit)` of `wallet_manager.py`: the trade rows
in sheet order and, when a non-zero `limit` is given and there are more
rows than `limit`, the Python slice `trades[-limit:]` (the most recent
`limit` rows).  The method's skip-empty check `any(row[:6])` keeps
every written trade row, because `get_all_values` renders the numeric
cells as strings and even "0" is a truthy string in Python; rows that
were never written are not part of the log, so the check filters
nothing in any reachable state. -/
def get_trade_history (limit : Option Nat) (ts : List Trade) : List Trade :=
  match limit with
  | none => ts
  | some l =>
    if l ≠ 0 ∧ ts.length > l then ts.drop (ts.length - l) else ts

/-- A raw trade payload as handed to the validator and to `add_trade`
(a Python dict).  An absent key is `none`; a numeric field that is
present but that Python's `float()` cannot parse is `some none`, a
parseable one is `some (some v)`. -/
structure RawTrade where
  action? : Option String
  asset? : Option String
  quantity? : Option (Option Rat)
  price? : Option (Option Rat)
  total_value? : Option Rat
  date? : Option String
  notes? : Option String
deriving DecidableEq, Repr

/-- Python's `str.upper()`, applied character by character (all action
strings involved are ASCII). -/
def pyUpper (s : String) : String := ⟨s.data.map Char.toUpper⟩

/-- `_validate_trade_data` of `bot_connector.py`: requires the four
fields `action, asset, quantity, price` to be present, `quantity` and
`price` to parse as numbers, and the upper-cased action to be BUY or
SELL.  It performs no check on the sign of `quantity`. -/
def validate_trade_data (r : RawTrade) : Bool :=
  match r.action?, r.asset?, r.quantity?, r.price? with
  | some a, some _, some q, some p =>
    q.isSome && p.isSome && (pyUpper a == "BUY" || pyUpper a == "SELL")
  | _, _, _, _ => false

/-- Python's `float(trade_data.get(key, 0))` on a numeric field:
a missing key falls back to the default 0; a present but unparseable
value raises `ValueError` (modelled as `none`). -/
def parseFloatD (v : Option (Option Rat)) : Option Rat :=
  match v with
  | none => some 0
  | some none => none
  | some (some q) => some q

/-- Where `add_trade` writes the new row.  The source computes
`next_row = max(6, n + 1)` where n counts the non-empty rows returned
by `get_all_values`; the header block occupies rows 1-5 but row 3 is a
blank spacer, so with k trade rows n = 4 + k and
`next_row = max(6, 5 + k)`: row 6 — a true append — when the log is
empty, but row 5 + k, the last filled trade row, when k >= 1, which the
write then overwrites.  The trade log therefore never grows past one
row through `add_trade`. -/
def writeTradeRow (ts : List Trade) (row : Trade) : List Trade :=
  if ts.isEmpty then [row] else ts.dropLast ++ [row]

/-- `add_trade` of `wallet_manager.py`: parse quantity and price (an
unparseable value raises, which the method's `except` turns into the
return value `False` with the ledger unchanged), derive `total_value`
as `quantity * price` when not supplied, build the row with upper-cased
action and defaulted fields, and write it at `next_row` — an append
only when the log is empty, otherwise an overwrite of the last row
(see `writeTradeRow`).  `storeOk` is the success of
`connector.update_range` (on a failed write the method returns `False`
and the sheet is unchanged); `today` is
`datetime.now().strftime('%Y-%m-%d')`.  No check of any kind is made on
the parsed quantity's value. -/
def add_trade (storeOk : Bool) (today : String) (ts : List Trade)
    (r : RawTrade) : Bool × List Trade :=
  match parseFloatD r.quantity?, parseFloatD r.price? with
  | some q, some p =>
    let tv := r.total_value?.getD (q * p)
    let row : Trade :=
      ⟨r.date?.getD today, pyUpper (r.action?.getD ""), r.asset?.getD "",
        q, p, tv, r.notes?.getD ""⟩
    if storeOk then (true, writeTradeRow ts row) else (false, ts)
  | _, _ => (false, ts)

/-- `fetch_bot_trades` of `bot_connector.py` on the API path: a
transport failure (`requests.RequestException`, caught inside the
method) yields `[]`; a successful fetch yields the payloads that pass
`_validate_trade_data`, in order. -/
def fetch_bot_trades (src : Except Unit (List RawTrade)) : List RawTrade :=
  match src with
  | .error _ => []
  | .ok batch => batch.filter validate_trade_data

/-- The append loop of `process_bot_trades`: submit each fetched payload
to the wallet via `add_trade`, counting the successes. -/
def addAll (storeOk : Bool) (today : String) (ts : List Trade)
    (batch : List RawTrade) : Nat × List Trade :=
  batch.foldl
    (fun acc r =>
      let res := add_trade storeOk today acc.2 r
      (acc.1 + (if res.1 then 1 else 0), res.2))
    (0, ts)

/-- C6: a raw record whose action is "HOLD" fails validation, and
submitting any record that fails validation through the ingestion path
(validator, then append of the accepted records) leaves the ledger
unchanged. -/
theorem c6_invalid_submission_rejected (today : String) (ts : List Trade)
    (r : RawTrade) :
    (r.action? = some "HOLD" → validate_trade_data r = false) ∧
    (validate_trade_data r = false →
      (addAll true today ts (fetch_bot_trades (Except.ok [r]))).2 = ts ∧
      (addAll true today ts (fetch_bot_trades (Except.ok [r]))).2.length
        = ts.length) := by
  constructor
  · intro h
    unfold validate_trade_data
    rw [h]
    cases r.asset? <;> cases r.quantity? <;> cases r.price? <;> simp
    intro _ _
    exact ⟨by decide, by decide⟩
  · intro h
    have hfil : [r].filter validate_trade_data = [] := by
      simp [List.filter, h]
    constructor <;> simp [fetch_bot_trades, hfil, addAll]

/-- A raw record with action "HOLD" and otherwise well-formed fields. -/
def holdRecord : RawTrade :=
  ⟨some "HOLD", some "BTC", some (some 1), some (some 5), none, none, none⟩

/-- C6 witness: the concrete HOLD record fails validation and its
submission leaves the scenario ledger unchanged. -/
theorem c6_invalid_submission_rejected_witness :
    validate_trade_data holdRecord = false ∧
    (addAll true "2024-01-05" demoLedger
      (fetch_bot_trades (Except.ok [holdRecord]))).2 = demoLedger :=
  have h := c6_invalid_submission_rejected "2024-01-05" demoLedger holdRecord
  ⟨h.1 rfl, (h.2 (h.1 rfl)).1⟩

/-- A BUY record with quantity 0 that is otherwise well-formed. -/
def qZeroBuy : RawTrade :=
  ⟨some "BUY", some "BTC", some (some 0), some (some 5), none, none, none⟩

/-- C7 counterexample: the record with quantity 0 passes the validator
(first half of the claim), but appending it to the empty ledger does
NOT fail with an InvalidQuantity error: `add_trade` returns True and
the row is written, so the claimed append-time rejection does not
exist. -/
theorem c7_counterexample :
    validate_trade_data qZeroBuy = true ∧
    (add_trade true "2024-01-05" [] qZeroBuy).1 = true ∧
    (add_trade true "2024-01-05" [] qZeroBuy).2.length = 1 := by
  refine ⟨by decide, ?_, ?_⟩ <;>
    simp [add_trade, qZeroBuy, parseFloatD, writeTradeRow]

theorem getLastD_concat_trade (l : List Trade) (a : Trade) :
    (l ++ [a]).getLastD default = a := by
  rw [List.getLastD_eq_getLast?, List.getLast?_concat]
  rfl

/-- C7 (amended): the validator does not enforce `quantity > 0` — it
checks only presence of action/asset/quantity/price, parseability of
quantity and price, and that the action is BUY or SELL
case-insensitively.  The ledger does not reject `quantity <= 0` at
append time either: no InvalidQuantity check exists anywhere;
`add_trade` returns True and writes the row carrying the non-positive
quantity into the sheet (appending when the log is empty, overwriting
the last row of a non-empty log), never failing. -/
theorem c7_no_quantity_check (today : String) (ts : List Trade)
    (a s : String) (q p : Rat) (tv : Option Rat) (d n : Option String)
    (hq : q ≤ 0) (ha : pyUpper a = "BUY" ∨ pyUpper a = "SELL") :
    validate_trade_data ⟨some a, some s, some (some q), some (some p), tv, d, n⟩
      = true ∧
    (add_trade true today ts
      ⟨some a, some s, some (some q), some (some p), tv, d, n⟩).1 = true ∧
    (add_trade true today ts
      ⟨some a, some s, some (some q), some (some p), tv, d, n⟩).2.length
      = max ts.length 1 ∧
    ((add_trade true today ts
      ⟨some a, some s, some (some q), some (some p), tv, d, n⟩).2.getLastD
        default).quantity = q := by
  refine ⟨?_, ?_, ?_, ?_⟩
  · rcases ha with h | h <;> simp [validate_trade_data, h]
  · simp [add_trade, parseFloatD]
  · cases ts with
    | nil => simp [add_trade, parseFloatD, writeTradeRow]
    | cons u us =>
      simp [add_trade, parseFloatD, writeTradeRow]
  · cases ts with
    | nil => simp [add_trade, parseFloatD, writeTradeRow]
    | cons u us =>
      simp [add_trade, parseFloatD, writeTradeRow, getLastD_concat_trade]

/-- A lower-case "buy" record with quantity -2, otherwise well-formed. -/
def negQtyRaw : RawTrade :=
  ⟨some "buy", some "ETH", some (some (-2)), some (some 7), none, none, none⟩

/-- C7 witness: the quantity -2 record passes the validator and is
written successfully into the non-empty scenario ledger. -/
theorem c7_no_quantity_check_witness :
    validate_trade_data negQtyRaw = true ∧
    (add_trade true "2024-01-06" demoLedger negQtyRaw).1 = true ∧
    (add_trade true "2024-01-06" demoLedger negQtyRaw).2.length
      = max demoLedger.length 1 ∧
    ((add_trade true "2024-01-06" demoLedger negQtyRaw).2.getLastD
        default).quantity = -2 :=
  c7_no_quantity_check "2024-01-06" demoLedger "buy" "ETH" (-2) 7 none none none
    (by norm_num) (Or.inl (by decide))

/-- A raw SELL payload (quantity 1, price 1200), accepted by the
validator. -/
def sellRaw : RawTrade :=
  ⟨some "SELL", some "BTC", some (some 1), some (some 1200), none,
    some "2024-01-04", none⟩

/-- A raw BUY payload whose caller supplies a negative `total_value`;
the validator does not look at `total_value` at all. -/
def buyNegRaw : RawTrade :=
  ⟨some "BUY", some "BTC", some (some 1), some (some 1000), some (-1000),
    some "2024-01-03", none⟩

/-- C3 counterexample: the claim fails on the program twice over.
Submitting the BUY payload with caller-supplied `total_value = -1000`
to the empty wallet (where `add_trade` really appends) strictly
decreases `costBasis`; and submitting a SELL to a wallet holding one
BUY strictly decreases `costBasis` as well, because `add_trade`
overwrites the last trade row instead of appending. -/
theorem c3_counterexample :
    costBasis (add_trade true "2024-01-03" [] buyNegRaw).2
      < costBasis ([] : List Trade) ∧
    costBasis (add_trade true "2024-01-04" [demoBuy] sellRaw).2
      < costBasis [demoBuy] := by
  have hb : pyUpper "BUY" = "BUY" := by decide
  have hs : pyUpper "SELL" = "SELL" := by decide
  constructor
  · simp [add_trade, parseFloatD, buyNegRaw, writeTradeRow, costBasis, hb]
  · simp [add_trade, parseFloatD, sellRaw, writeTradeRow, costBasis, hs,
      demoBuy]

/-- C3 (amended): `costBasis` is the sum of `total_value` over the BUY
rows stored in the ledger.  At the level of stored rows, an extra SELL
row leaves `costBasis` unchanged and an extra BUY row with non-negative
`total_value` never decreases it.  `add_trade`, however, realizes such
an extension only on an empty trade log: on a non-empty log it
overwrites the last row (the misplaced next-row computation, see
`writeTradeRow`), so the log's length never changes under submissions
and a SELL submission can strictly decrease `costBasis`; and a BUY
whose caller-supplied `total_value` is negative decreases it even when
truly appended. -/
theorem c3_cost_basis (ts : List Trade) (t : Trade) :
    costBasis ts
      = ((ts.filter (fun u => u.action == "BUY")).map Trade.total_value).sum ∧
    (t.action = "SELL" → costBasis (ts ++ [t]) = costBasis ts) ∧
    (t.action = "BUY" → 0 ≤ t.total_value →
      costBasis ts ≤ costBasis (ts ++ [t])) ∧
    (ts ≠ [] → ∀ (storeOk : Bool) (today : String) (r : RawTrade),
      (add_trade storeOk today ts r).2.length = ts.length) := by
  refine ⟨?_, ?_, ?_, ?_⟩
  · induction ts with
    | nil => simp [costBasis]
    | cons u us ih =>
      by_cases h : u.action = "BUY"
      · simp [costBasis, List.filter_cons, h] at ih ⊢
        exact ih
      · simp [costBasis, List.filter_cons, h] at ih ⊢
        exact ih
  · intro h
    have hne : ("SELL" : String) ≠ "BUY" := by decide
    rw [costBasis_append, costBasis_singleton, h, if_neg hne, add_zero]
  · intro h hnn
    rw [costBasis_append, costBasis_singleton, h, if_pos rfl]
    linarith
  · intro hne storeOk today r
    have hpos : 0 < ts.length := List.length_pos.mpr hne
    have hemp : ts.isEmpty = false := by
      cases ts with
      | nil => exact absurd rfl hne
      | cons u us => rfl
    cases hq : parseFloatD r.quantity? <;> cases hp : parseFloatD r.price? <;>
      cases storeOk <;> simp [add_trade, hq, hp, writeTradeRow, hemp] <;> omega

/-- C3 witness: row-level extension facts at the scenario ledger, and
the no-growth fact for a concrete SELL submission to it. -/
theorem c3_cost_basis_witness :
    costBasis (demoLedger ++ [demoSell]) = costBasis demoLedger ∧
    costBasis demoLedger ≤ costBasis (demoLedger ++ [demoBuy]) ∧
    (add_trade true "2024-01-05" demoLedger sellRaw).2.length
      = demoLedger.length :=
  ⟨(c3_cost_basis demoLedger demoSell).2.1 rfl,
   (c3_cost_basis demoLedger demoBuy).2.2.1 rfl (by norm_num [demoBuy]),
   (c3_cost_basis demoLedger demoSell).2.2.2 (by decide) true "2024-01-05"
     sellRaw⟩

/-- A raw BUY payload (quantity 1, price 1000), accepted by the
validator. -/
def rawBuyA : RawTrade :=
  ⟨some "BUY", some "BTC", some (some 1), some (some 1000), none,
    some "2024-01-01", none⟩

/-- The trade log produced by submitting two valid trades (a BUY, then
a SELL) to a fresh wallet through `add_trade`. -/
def twoSubmissions : List Trade :=
  (add_trade true "2024-01-02"
    (add_trade true "2024-01-01" [] rawBuyA).2 sellRaw).2

/-- C8, exhibiting the row-placement bug: both submissions return True,
yet after the two appends the trade log holds a single row — the second
write overwrote row 6, because `next_row` counts the non-empty rows and
the blank spacer row 3 makes the count one short — so
`get_trade_history()` returns one trade, the SELL, instead of the two
appended trades in append order. -/
theorem c8_roundtrip_code_bug :
    (add_trade true "2024-01-01" [] rawBuyA).1 = true ∧
    (add_trade true "2024-01-02"
      (add_trade true "2024-01-01" [] rawBuyA).2 sellRaw).1 = true ∧
    twoSubmissions.length = 1 ∧
    (get_trade_history none twoSubmissions).length = 1 ∧
    (get_trade_history none twoSubmissions).map Trade.action = ["SELL"] := by
  refine ⟨?_, ?_, ?_, ?_, ?_⟩ <;> decide

/-- The record returned by `get_wallet_performance`. -/
structure PerformanceData where
  name : String
  initial_investment : Rat
  current_value : Rat
  total_return : Rat
  total_return_pct : Rat
  apy : Rat
deriving DecidableEq, Repr

/-- `_get_cell_value(addr, default=0)`: an empty cell (`none`), or a
cell whose text `float()` cannot parse (`some none`, the except branch),
yields the default 0; a numeric cell yields its value. -/
def getCellValue (v : Option (Option Rat)) : Rat :=
  match v with
  | some (some q) => q
  | _ => 0

/-- The four summary cells B2, D2, F2, H2 as retrieved by
`get_wallet_performance`, each in the encoding of `getCellValue`. -/
def SummaryReads : Type :=
  Option (Option Rat) × Option (Option Rat) × Option (Option Rat) × Option (Option Rat)

/-- `get_wallet_performance` of `wallet_manager.py`: read the four
summary cells (initial investment, current value, total return, APY),
recompute `total_return_pct` in Python with the
`initial_investment > 0` guard, and return the record; if the retrieval
raises (`reads = .error`), the except branch returns the record with
the wallet name and every metric 0. -/
def get_wallet_performance (name : String) (reads : Except Unit SummaryReads) :
    PerformanceData :=
  match reads with
  | .error _ => ⟨name, 0, 0, 0, 0, 0⟩
  | .ok (b2, d2, f2, h2) =>
    let ii := getCellValue b2
    let cv := getCellValue d2
    let tr := getCellValue f2
    let ay := getCellValue h2
    let pct := if 0 < ii then (cv / ii - 1) * 100 else 0
    ⟨name, ii, cv, tr, pct, ay⟩

/-- `get_trade_history` including its outer try/except: a failed sheet
read (`fetch = .error`) returns the empty list. -/
def get_trade_history_io (fetch : Except Unit (List Trade))
    (limit : Option Nat) : List Trade :=
  match fetch with
  | .error _ => []
  | .ok ts => get_trade_history limit ts

/-- C10: the public wallet operations are total at their interface:
`add_trade` returns False, with the ledger unchanged, on any internal
failure (unparseable numeric field or failed sheet write) instead of
raising; `get_wallet_performance` always carries the wallet name and on
a failed retrieval returns the all-zero record; `get_trade_history`
returns the empty list on a failed retrieval. -/
theorem c10_total_interface (storeOk : Bool) (today : String)
    (ts : List Trade) (r : RawTrade) (name : String)
    (reads : Except Unit SummaryReads) (fetch : Except Unit (List Trade))
    (limit : Option Nat) :
    (parseFloatD r.quantity? = none ∨ parseFloatD r.price? = none ∨
        storeOk = false →
      (add_trade storeOk today ts r).1 = false ∧
      (add_trade storeOk today ts r).2 = ts) ∧
    (get_wallet_performance name reads).name = name ∧
    (reads = .error () → get_wallet_performance name reads = ⟨name, 0, 0, 0, 0, 0⟩) ∧
    (fetch = .error () → get_trade_history_io fetch limit = []) := by
  refine ⟨?_, ?_, ?_, ?_⟩
  · intro h
    rcases h with h | h | h
    · cases hp : parseFloatD r.price? <;> simp [add_trade, h, hp]
    · cases hq : parseFloatD r.quantity? <;> simp [add_trade, h, hq]
    · cases hq : parseFloatD r.quantity? <;> cases hp : parseFloatD r.price? <;>
        simp [add_trade, h, hq, hp]
  · cases reads with
    | error e => rfl
    | ok c =>
      obtain ⟨b2, d2, f2, h2⟩ := c
      rfl
  · intro h
    rw [h]
    rfl
  · intro h
    rw [h]
    rfl

/-- A BUY record whose quantity is present but not parseable as a
number (Python float() raises ValueError on it). -/
def badQuantityRecord : RawTrade :=
  ⟨some "BUY", some "BTC", some none, some (some 5), none, none, none⟩

/-- C10 witness: the unparseable-quantity record makes `add_trade`
return False with the ledger unchanged, a failed summary retrieval
returns the named all-zero record, and a failed history retrieval
returns the empty list. -/
theorem c10_total_interface_witness :
    ((add_trade true "2024-01-07" demoLedger badQuantityRecord).1 = false ∧
      (add_trade true "2024-01-07" demoLedger badQuantityRecord).2 = demoLedger) ∧
    get_wallet_performance "wallet_a" (.error ()) = ⟨"wallet_a", 0, 0, 0, 0, 0⟩ ∧
    get_trade_history_io (.error ()) (some 5) = [] :=
  have h := c10_total_interface true "2024-01-07" demoLedger badQuantityRecord
    "wallet_a" (.error ()) (.error ()) (some 5)
  ⟨h.1 (Or.inl rfl), h.2.2.1 rfl, h.2.2.2 rfl⟩

/-- Per-bot registration entry: the associated wallet name and the
last-known status string (registered / active / error).  The
`api_endpoint`, `api_key` and `last_update` metadata of
`bot_connector.py` play no part in the verified behaviour and are
omitted. -/
structure BotInfo where
  wallet_name : String
  status : String
deriving DecidableEq, Repr

/-- The connector state: `registered_bots` and the portfolio's wallet
managers, both Python dicts, modelled as insertion-ordered association
lists. -/
structure BotSystem where
  bots : List (String × BotInfo)
  wallets : List (String × List Trade)
deriving DecidableEq, Repr

/-- Python dict assignment `d[k] = v`: overwrite in place when the key
exists, append otherwise. -/
def insertAssoc {α : Type} (k : String) (v : α) :
    List (String × α) → List (String × α)
  | [] => [(k, v)]
  | p :: ps => if p.1 == k then (k, v) :: ps else p :: insertAssoc k v ps

/-- Python dict assignment for a key already known to exist (used for
status updates and ledger writes); leaves the list unchanged when the
key is absent, matching that the callers only write existing keys. -/
def setAssoc {α : Type} (k : String) (v : α) :
    List (String × α) → List (String × α)
  | [] => []
  | p :: ps => if p.1 == k then (k, v) :: ps else p :: setAssoc k v ps

/-- `register_bot`: record the bot with status "registered" and ensure
the wallet exists (`portfolio_manager.add_wallet` creates it only when
absent). -/
def register_bot (botName walletName : String) (sys : BotSystem) : BotSystem :=
  { bots := insertAssoc botName ⟨walletName, "registered"⟩ sys.bots,
    wallets :=
      if (sys.wallets.lookup walletName).isSome then sys.wallets
      else sys.wallets ++ [(walletName, [])] }

/-- `process_bot_trades`: fetch the bot's payloads (a transport failure
is already converted to `[]` inside `fetch_bot_trades`), submit each to
the bot's wallet counting successes, unconditionally mark the bot
"active", and report whether at least one trade was accepted.  The
method's `except` branch (which would set status "error") can only run
if an exception escapes `fetch_bot_trades` or
`portfolio_manager.add_trade`, and both catch their exceptions and
return values instead, so it is not part of the reachable behaviour. -/
def process_bot_trades (today : String)
    (sources : String → Except Unit (List RawTrade)) (sys : BotSystem)
    (botName : String) : Bool × BotSystem :=
  match sys.bots.lookup botName with
  | none => (false, sys)
  | some info =>
    let fetched := fetch_bot_trades (sources botName)
    match sys.wallets.lookup info.wallet_name with
    | none =>
      ((false : Bool),
        { sys with bots := setAssoc botName ⟨info.wallet_name, "active"⟩ sys.bots })
    | some ts =>
      let res := addAll true today ts fetched
      (decide (0 < res.1),
        { bots := setAssoc botName ⟨info.wallet_name, "active"⟩ sys.bots,
          wallets := setAssoc info.wallet_name res.2 sys.wallets })

/-- `update_all_bots`: run `process_bot_trades` for every registered
bot in registration order (the keys are snapshotted before the loop and
the loop never adds or removes bots), collecting one success boolean
per bot; the per-bot try/except keeps one bot's failure from aborting
the rest. -/
def update_all_bots (today : String)
    (sources : String → Except Unit (List RawTrade)) (sys : BotSystem) :
    List (String × Bool) × BotSystem :=
  sys.bots.foldl
    (fun acc p =>
      let res := process_bot_trades today sources acc.2 p.1
      (acc.1 ++ [(p.1, res.1)], res.2))
    ([], sys)

theorem update_all_bots_foldl_names (today : String)
    (sources : String → Except Unit (List RawTrade))
    (l : List (String × BotInfo)) :
    ∀ acc : List (String × Bool) × BotSystem,
      (l.foldl
        (fun acc p =>
          let res := process_bot_trades today sources acc.2 p.1
          (acc.1 ++ [(p.1, res.1)], res.2)) acc).1.map Prod.fst
        = acc.1.map Prod.fst ++ l.map Prod.fst := by
  induction l with
  | nil => intro acc; simp
  | cons p ps ih =>
    intro acc
    rw [List.foldl_cons, ih]
    simp

theorem lookup_setAssoc {α : Type} (k : String) (v : α)
    (l : List (String × α)) (h : (l.lookup k).isSome) :
    (setAssoc k v l).lookup k = some v := by
  induction l with
  | nil => simp [List.lookup] at h
  | cons p ps ih =>
    obtain ⟨a, b⟩ := p
    by_cases heq : a = k
    · subst heq
      simp [setAssoc, List.lookup]
    · have h1 : (a == k) = false := by simp [heq]
      have h2 : (k == a) = false := by simp [Ne.symm heq]
      have hset : setAssoc k v ((a, b) :: ps) = (a, b) :: setAssoc k v ps := by
        simp [setAssoc, h1]
      have hlk : ∀ rest : List (String × α),
          List.lookup k ((a, b) :: rest) = List.lookup k rest := by
        intro rest
        simp [List.lookup, h2]
      rw [hlk] at h
      rw [hset, hlk]
      exact ih h

/-- A well-formed BUY payload accepted by the validator. -/
def okBuyRecord : RawTrade :=
  ⟨some "BUY", some "BTC", some (some 1), some (some 10), none,
    some "2024-01-08", none⟩

/-- Bot sources for the 3-bot scenario: bot 2's fetch fails with a
transport error, bots 1 and 3 deliver one valid BUY payload. -/
def scenarioSources : String → Except Unit (List RawTrade) :=
  fun b => if b == "bot2" then .error () else .ok [okBuyRecord]

/-- Three bots registered in order, each with its own wallet. -/
def scenarioSystem : BotSystem :=
  register_bot "bot3" "w3" (register_bot "bot2" "w2"
    (register_bot "bot1" "w1" ⟨[], []⟩))

/-- C2 counterexample: in the 3-bot scenario where bot 2's source
fails, `update_all_bots` reports bot1=true, bot2=false, bot3=true — but
bot 2's status becomes "active", not "error" as the claim states: the
transport failure is swallowed inside `fetch_bot_trades` (it returns
`[]`), so `process_bot_trades` completes normally and unconditionally
marks the bot "active". -/
theorem c2_counterexample :
    scenarioSources "bot2" = .error () ∧
    (update_all_bots "2024-01-08" scenarioSources scenarioSystem).1
      = [("bot1", true), ("bot2", false), ("bot3", true)] ∧
    ((update_all_bots "2024-01-08" scenarioSources scenarioSystem).2.bots.lookup
        "bot2").map BotInfo.status = some "active" ∧
    ¬ ((update_all_bots "2024-01-08" scenarioSources scenarioSystem).2.bots.lookup
        "bot2").map BotInfo.status = some "error" := by
  refine ⟨rfl, by decide, by decide, by decide⟩

/-- C2 (amended): `update_all_bots` runs an ingest cycle for every
registered bot and reports one boolean per bot in registration order
(one bot's failure does not abort the rest); every processed cycle —
including one whose fetch fails, since `fetch_bot_trades` converts the
transport error into an empty batch — sets the bot's status to
"active"; a cycle whose fetch fails reports False (its success flag is
"at least one trade accepted"), and the reachable code never sets
status "error" on a fetch failure. -/
theorem c2_ingest_all (today : String)
    (sources : String → Except Unit (List RawTrade)) (sys : BotSystem)
    (botName : String) (info : BotInfo)
    (hreg : sys.bots.lookup botName = some info) :
    (update_all_bots today sources sys).1.map Prod.fst
      = sys.bots.map Prod.fst ∧
    ((process_bot_trades today sources sys botName).2.bots.lookup botName).map
        BotInfo.status = some "active" ∧
    (sources botName = .error () →
      (process_bot_trades today sources sys botName).1 = false) := by
  have hs : (sys.bots.lookup botName).isSome := by rw [hreg]; rfl
  have hset :=
    lookup_setAssoc botName (⟨info.wallet_name, "active"⟩ : BotInfo) sys.bots hs
  refine ⟨?_, ?_, ?_⟩
  · simpa using update_all_bots_foldl_names today sources sys.bots ([], sys)
  · unfold process_bot_trades
    rw [hreg]
    cases hw : sys.wallets.lookup info.wallet_name <;> simp [hw, hset]
  · intro h
    unfold process_bot_trades
    rw [hreg, h]
    cases hw : sys.wallets.lookup info.wallet_name <;>
      simp [hw, fetch_bot_trades, addAll]

/-- C2 witness at the 3-bot scenario, applied to bot 2 (the failing
source). -/
theorem c2_ingest_all_witness :
    (update_all_bots "2024-01-08" scenarioSources scenarioSystem).1.map Prod.fst
      = scenarioSystem.bots.map Prod.fst ∧
    ((process_bot_trades "2024-01-08" scenarioSources scenarioSystem
        "bot2").2.bots.lookup "bot2").map BotInfo.status = some "active" ∧
    (process_bot_trades "2024-01-08" scenarioSources scenarioSystem "bot2").1
      = false :=
  have h := c2_ingest_all "2024-01-08" scenarioSources scenarioSystem "bot2"
    ⟨"w2", "registered"⟩ (by decide)
  ⟨h.1, h.2.1, h.2.2 rfl⟩

/-- The performance record of one wallet when the sheet reads succeed:
each summary cell holds the value of its formula (see
`get_wallet_performance`; the Python-side `total_return_pct`
recomputation coincides with `totalReturnPct`). -/
def wallet_performance_of (power : Rat → Rat → Rat) (daysElapsed : Nat)
    (name : String) (ts : List Trade) : PerformanceData :=
  ⟨name, costBasis ts, currentValue ts, totalReturn ts, totalReturnPct ts,
    apy power daysElapsed ts⟩

/-- Reading the evaluated summary cells of a wallet's sheet through
`get_wallet_performance` gives exactly `wallet_performance_of`. -/
theorem get_wallet_performance_coherent (power : Rat → Rat → Rat)
    (d : Nat) (name : String) (ts : List Trade) :
    get_wallet_performance name
      (.ok (some (some (costBasis ts)), some (some (currentValue ts)),
        some (some (totalReturn ts)), some (some (apy power d ts))))
      = wallet_performance_of power d name ts := by
  simp [get_wallet_performance, wallet_performance_of, getCellValue,
    totalReturnPct]

/-- The summary dictionary built by `get_portfolio_summary`
(`timestamp`, an I/O value, is omitted). -/
structure PortfolioSummary where
  total_portfolio_value : Rat
  total_invested : Rat
  total_return : Rat
  total_return_pct : Rat
  num_wallets : Nat
  wallets : List PerformanceData
deriving DecidableEq, Repr

/-- `get_portfolio_summary` of `portfolio_manager.py`: loop over the
wallets in registration order, collect each performance record and
accumulate `total_value` and `total_invested`; then
`total_return = total_value - total_invested` and the percentage with
the `total_invested > 0` guard. -/
def get_portfolio_summary (power : Rat → Rat → Rat) (daysElapsed : Nat)
    (ws : List (String × List Trade)) : PortfolioSummary :=
  let acc := ws.foldl
    (fun (acc : Rat × Rat × List PerformanceData) p =>
      let perf := wallet_performance_of power daysElapsed p.1 p.2
      (acc.1 + perf.current_value, acc.2.1 + perf.initial_investment,
        acc.2.2 ++ [perf]))
    (0, 0, [])
  let total_return := acc.1 - acc.2.1
  let pct := if 0 < acc.2.1 then (total_return / acc.2.1) * 100 else 0
  ⟨acc.1, acc.2.1, total_return, pct, ws.length, acc.2.2⟩

theorem get_portfolio_summary_foldl (power : Rat → Rat → Rat) (d : Nat)
    (l : List (String × List Trade)) :
    ∀ acc : Rat × Rat × List PerformanceData,
      (l.foldl
        (fun (acc : Rat × Rat × List PerformanceData) p =>
          let perf := wallet_performance_of power d p.1 p.2
          (acc.1 + perf.current_value, acc.2.1 + perf.initial_investment,
            acc.2.2 ++ [perf])) acc)
      = (acc.1 + (l.map (fun p => currentValue p.2)).sum,
         acc.2.1 + (l.map (fun p => costBasis p.2)).sum,
         acc.2.2 ++ l.map (fun p => wallet_performance_of power d p.1 p.2)) := by
  induction l with
  | nil => intro acc; simp
  | cons p ps ih =>
    intro acc
    rw [List.foldl_cons, ih]
    simp [wallet_performance_of, add_assoc]

/-- C9: the portfolio summary totals are the sums of `currentValue`
and `costBasis` over all wallet ledgers, the per-wallet list preserves
registration order, `total_return = total_value - total_invested`, the
percentage is 0 when nothing is invested, and `num_wallets` counts the
wallets.  The computation only folds over the ledgers and returns a
new record, mutating nothing. -/
theorem c9_portfolio_summary (power : Rat → Rat → Rat) (d : Nat)
    (ws : List (String × List Trade)) :
    (get_portfolio_summary power d ws).total_portfolio_value
      = (ws.map (fun p => currentValue p.2)).sum ∧
    (get_portfolio_summary power d ws).total_invested
      = (ws.map (fun p => costBasis p.2)).sum ∧
    (get_portfolio_summary power d ws).wallets
      = ws.map (fun p => wallet_performance_of power d p.1 p.2) ∧
    (get_portfolio_summary power d ws).total_return
      = (get_portfolio_summary power d ws).total_portfolio_value
        - (get_portfolio_summary power d ws).total_invested ∧
    ((get_portfolio_summary power d ws).total_invested = 0 →
      (get_portfolio_summary power d ws).total_return_pct = 0) ∧
    (get_portfolio_summary power d ws).num_wallets = ws.length := by
  have hfold := get_portfolio_summary_foldl power d ws (0, 0, [])
  refine ⟨?_, ?_, ?_, ?_, ?_, ?_⟩ <;>
    simp [get_portfolio_summary, hfold]
  intro h
  simp [h]

/-- C9 witness: a one-wallet portfolio holding only a SELL trade has
`total_invested = 0` and therefore `total_return_pct = 0`. -/
theorem c9_portfolio_summary_witness :
    (get_portfolio_summary (fun a _ => a) 3
      [("wallet_a", sellOnlyLedger)]).total_return_pct = 0 :=
  have h := c9_portfolio_summary (fun a _ => a) 3 [("wallet_a", sellOnlyLedger)]
  h.2.2.2.2.1 (by
    rw [h.2.1]
    simp [costBasis, sellOnlyLedger, demoSell])
